import Mathlib

/-!
Shallow embedding of the RAG core of `rag_utils.py` (text extraction,
normalization, chunking, cosine-similarity retrieval, idempotent document
processing and chat-session management) together with proofs about it.

Text is modelled as `List Char`.  Python string primitives used by the
source (slicing and `str.rfind` with slice-style index normalization,
`str.strip`) are modelled explicitly, including the wrap-around of negative
indices, which is relevant to the chunker's loop behaviour.
-/

namespace Rag

/-- Python slice-index normalization: a negative index counts from the end
of the sequence (clamped below at 0), a non-negative one is clamped above at
the length.  Both `text[s:e]` and `text.rfind(c, s, e)` use this rule. -/
def pyIdx (n : Nat) (i : Int) : Nat :=
  if i < 0 then ((n : Int) + i).toNat else min i.toNat n

/-- `text[s:e]` for `text : List Char` with Python slice semantics. -/
def pySlice (t : List Char) (s e : Int) : List Char :=
  (t.take (pyIdx t.length e)).drop (pyIdx t.length s)

/-- The whitespace class used by `str.strip` and `\s` (ASCII fragment). -/
def isPySpace (c : Char) : Bool := c.isWhitespace

/-- `text.strip()`: remove leading and trailing whitespace. -/
def pyStrip (t : List Char) : List Char :=
  ((t.dropWhile isPySpace).reverse.dropWhile isPySpace).reverse

/-- One left-to-right scan for `rfind`: `i` is the index of the head of the
remaining list, `s`/`e` the normalized bounds, `best` the last hit so far. -/
def rfindScan (c : Char) : List Char → Nat → Nat → Nat → Int → Int
  | [], _, _, _, best => best
  | x :: xs, i, s, e, best =>
      rfindScan c xs (i + 1) s e (if s ≤ i ∧ i < e ∧ x = c then (i : Int) else best)

/-- `text.rfind(c, s, e)`: the largest index `i` in the normalized range
`[s, e)` with `text[i] = c`, else `-1`. -/
def pyRfind (t : List Char) (c : Char) (s e : Int) : Int :=
  rfindScan c t 0 (pyIdx t.length s) (pyIdx t.length e) (-1)

/-- One chunk record as built by `chunk_text` (the dict in the source,
with the `metadata` positions inlined as fields). -/
structure Chunk where
  content : List Char
  chunk_index : Nat
  chunk_size : Nat
  overlap_size : Nat
  start_pos : Int
  end_pos : Int
deriving DecidableEq, Repr

/-- The cut position computed by one iteration of `chunk_text`'s loop:
`end = start + chunk_size`; when that lies strictly inside the text, snap
back to the last sentence terminator in `[start, end)` if it lies in the
back half of the window, else to the last space there under the same rule. -/
def chunkEnd (t : List Char) (size : Nat) (start : Int) : Int :=
  let e := start + (size : Int)
  if e < (t.length : Int) then
    let sentence_end := pyRfind t '.' start e
    if sentence_end > start + ((size / 2 : Nat) : Int) then sentence_end + 1
    else
      let word_end := pyRfind t ' ' start e
      if word_end > start + ((size / 2 : Nat) : Int) then word_end else e
  else e

/-- `text[start:end].strip()` for the cut of one loop iteration. -/
def chunkContent (t : List Char) (size : Nat) (start : Int) : List Char :=
  pyStrip (pySlice t start (chunkEnd t size start))

/-- The loop's next start position: `end - overlap` when the cut did not
consume the rest of the text, else `end`. -/
def nextStart (t : List Char) (size overlap : Nat) (start : Int) : Int :=
  let e := chunkEnd t size start
  if e < (t.length : Int) then e - (overlap : Int) else e

/-- `chunk_index` after one iteration: it increments only when a non-empty
chunk was emitted. -/
def nextIdx (t : List Char) (size : Nat) (start : Int) (idx : Nat) : Nat :=
  if chunkContent t size start = [] then idx else idx + 1

/-- The accumulated chunk list after one iteration: a chunk whose stripped
content is empty is skipped. -/
def nextChunks (t : List Char) (size overlap : Nat) (start : Int) (idx : Nat)
    (acc : List Chunk) : List Chunk :=
  let content := chunkContent t size start
  if content = [] then acc
  else
    acc ++ [⟨content, idx, content.length, if 0 < idx then overlap else 0,
            start, chunkEnd t size start⟩]

/-- The `while start < len(text)` loop of `chunk_text`, made total with a
fuel parameter: `none` means the given fuel did not reach the loop's exit
(the trailing `if start >= len(text): break` of the source re-checks the
loop condition and is subsumed by it). -/
def chunkLoop (t : List Char) (size overlap : Nat) :
    Nat → Int → Nat → List Chunk → Option (List Chunk)
  | 0, _, _, _ => none
  | fuel + 1, start, idx, acc =>
      if start < (t.length : Int) then
        chunkLoop t size overlap fuel (nextStart t size overlap start)
          (nextIdx t size start idx) (nextChunks t size overlap start idx acc)
      else some acc

/-- `chunk_text(text, chunk_size, overlap)`: empty text yields no chunks,
otherwise the loop runs from `start = 0`. -/
def chunk_text (t : List Char) (size overlap : Nat) (fuel : Nat) : Option (List Chunk) :=
  if t = [] then some [] else chunkLoop t size overlap fuel 0 0 []

/-- A 20-character text with a sentence terminator at index 6: the input on
which `chunk_text(·, 10, 9)` diverges. -/
def cycleText : List Char := "aaaaaa.aaaaaaaaaaaaa".data

/-- 2,400 characters with no sentence terminator and no word boundary: the
degenerate no-boundary input of the end-to-end chunking property. -/
def t2400 : List Char := List.replicate 2400 'a'

/-!
`clean_text`: collapse whitespace runs to single spaces, then keep only
printable-or-whitespace characters, then strip.  The source's page-number
substitution `re.sub(r'\n\d+\n', '\n', text)` runs after the whitespace
collapse has removed every newline, so it can never match and is omitted.
-/

/-- One pass of `re.sub(r'\s+', ' ', text)`: `inRun` is true while inside a
whitespace run that has already emitted its single space. -/
def collapseWsAux : Bool → List Char → List Char
  | _, [] => []
  | inRun, c :: rest =>
      if isPySpace c then
        if inRun then collapseWsAux true rest else ' ' :: collapseWsAux true rest
      else c :: collapseWsAux false rest

/-- `str.isprintable` on the ASCII fragment: control characters (below
`0x20`, and `0x7f`) are not printable. -/
def isPyPrintable (c : Char) : Bool := 0x20 ≤ c.toNat && c.toNat != 0x7f

/-- `clean_text(text)` from the source. -/
def clean_text (t : List Char) : List Char :=
  pyStrip ((collapseWsAux false t).filter (fun c => isPyPrintable c || isPySpace c))

/-- Sum of pairwise products: `np.dot` on two equal-length 1-D arrays. -/
def dotP (a b : List ℚ) : ℚ := (List.zipWith (fun x y => x * y) a b).sum

/-- Sum of squares of the entries, so that `np.linalg.norm a = √(sumSq a)`. -/
def sumSq (a : List ℚ) : ℚ := (a.map (fun x => x * x)).sum

/-- `np.linalg.norm`, the Euclidean norm, over the reals. -/
noncomputable def norm2 (a : List ℚ) : ℝ := Real.sqrt ((sumSq a : ℚ) : ℝ)

/-- `cosine_similarity(vec1, vec2)`.  Machine floats are modelled by exact
arithmetic: vectors are rational, the score real.  Branches of the source in
order: the `if not vec1 or not vec2` guard; the `except` path, whose only
reachable trigger is `np.dot` raising on mismatched 1-D shapes (the handler
returns `0.0`); the zero-norm guard (`norm a = 0` iff `sumSq a = 0`); and
the division.  The model function is total, as is the source function. -/
noncomputable def cosine_similarity (a b : List ℚ) : ℝ :=
  if a.isEmpty || b.isEmpty then 0
  else if a.length ≠ b.length then 0
  else if sumSq a = 0 ∨ sumSq b = 0 then 0
  else (dotP a b : ℝ) / (norm2 a * norm2 b)

/-- `ResearchPaper` restricted to the fields the RAG core reads.  An empty
`file_path` models a missing/`NULL` path (both are falsy in the source's
`not paper.file_path` check). -/
structure Paper where
  id : Nat
  file_path : List Char
  title : List Char
deriving DecidableEq, Repr

/-- A `DocumentChunk` row.  `embedding` is the decoded JSON vector (`none`
when the embedding provider returned `None`); the `metadata` JSON's
positions are inlined as `start_pos`/`end_pos`. -/
structure DBChunk where
  id : Nat
  paper_id : Nat
  chunk_index : Nat
  content : List Char
  embedding : Option (List ℚ)
  chunk_size : Nat
  overlap_size : Nat
  start_pos : Int
  end_pos : Int
deriving DecidableEq, Repr

/-- A `ChatSession` row.  The opaque UUID `session_id` and the primary key
`id` are modelled as numbers drawn from the caller; timestamps are logical
clock values supplied at call time. -/
structure SessionRec where
  id : Nat
  user_id : Nat
  paper_id : Nat
  session_id : Nat
  is_active : Bool
  chunks_processed : Bool
  created_at : Nat
  last_interaction : Nat
deriving DecidableEq, Repr

/-- The database state the RAG core sees.  Queries preserve row order, and
rows are appended in insertion order, matching the unordered SELECTs of the
source, which return rows in rowid (= insertion) order. -/
structure DB where
  papers : List Paper
  chunks : List DBChunk
  sessions : List SessionRec
deriving DecidableEq, Repr

/-- `db.query(ResearchPaper).filter(id == paper_id).first()`. -/
def findPaper (db : DB) (pid : Nat) : Option Paper :=
  db.papers.find? (fun p => p.id == pid)

/-- `db.query(DocumentChunk).filter(paper_id == paper_id).first()`. -/
def findChunkFor (db : DB) (pid : Nat) : Option DBChunk :=
  db.chunks.find? (fun c => c.paper_id == pid)

/-- `process_paper_for_rag(paper_id, db)`.  External effects are oracles:
`extract` is the text `extract_text_from_pdf` returns for a file path,
`embed` the embedding provider (`none` = `generate_embedding` returned
`None`), `commitOk` whether `db.commit()` succeeds (on failure the source's
handler rolls the session back, leaving the database unchanged), `nextId`
the primary key the store assigns to the first inserted chunk.  Inside the
`try` block only the commit can raise: extraction and embedding catch their
own exceptions, and `chunk_text` either returns or diverges (its fuel here,
`length + 1`, is sufficient whenever it terminates at all — see
`chunk_text_defaults_isSome` for the default `1000/200` configuration). -/
def process_paper_for_rag (pid : Nat) (db : DB)
    (extract : List Char → List Char) (embed : List Char → Option (List ℚ))
    (commitOk : Bool) (nextId : Nat) : Bool × DB :=
  match findPaper db pid with
  | none => (false, db)
  | some paper =>
      if paper.file_path = [] then (false, db)
      else if (findChunkFor db pid).isSome then (true, db)
      else
        let raw_text := extract paper.file_path
        if raw_text = [] then (false, db)
        else
          let cleaned := clean_text raw_text
          let cs := (chunk_text cleaned 1000 200 (cleaned.length + 1)).getD []
          let recs := cs.map (fun cd =>
            ({ id := nextId + cd.chunk_index, paper_id := pid,
               chunk_index := cd.chunk_index, content := cd.content,
               embedding := embed cd.content, chunk_size := cd.chunk_size,
               overlap_size := cd.overlap_size, start_pos := cd.start_pos,
               end_pos := cd.end_pos } : DBChunk))
          if commitOk then (true, { db with chunks := db.chunks ++ recs })
          else (false, db)

/-- `ensure_paper_processed(paper_id, db)`. -/
def ensure_paper_processed (pid : Nat) (db : DB)
    (extract : List Char → List Char) (embed : List Char → Option (List ℚ))
    (commitOk : Bool) (nextId : Nat) : Bool × DB :=
  if (findChunkFor db pid).isSome then (true, db)
  else process_paper_for_rag pid db extract embed commitOk nextId

/-- The guard path of `process_paper_for_rag` (also behind
`ensure_paper_processed`'s own presence check) that reaches the
`extract_text_from_pdf` call: paper found, truthy file path, no existing
chunk.  Extraction — and with it the rest of the pipeline — runs exactly
when this holds. -/
def pipelineRuns (pid : Nat) (db : DB) : Bool :=
  match findPaper db pid with
  | none => false
  | some paper => paper.file_path != [] && (findChunkFor db pid).isNone

/-- One entry of the list `search_relevant_chunks` builds (its dict, minus
the `metadata` passthrough).  The score type `σ` is kept generic over a
linear order: the source scores with machine floats, and the ranking logic
depends only on the total order of the scores. -/
structure ScoredChunk (σ : Type) where
  chunk_id : Nat
  content : List Char
  similarity : σ
  chunk_index : Nat
deriving DecidableEq, Repr

/-- Stable insertion for descending sort: `x` goes in front of the first
element whose score is not above `x`'s, so among equal scores an element
earlier in the input stays earlier in the output. -/
def insertDesc {σ : Type} [LinearOrder σ] (x : ScoredChunk σ) :
    List (ScoredChunk σ) → List (ScoredChunk σ)
  | [] => [x]
  | y :: ys =>
      if y.similarity ≤ x.similarity then x :: y :: ys else y :: insertDesc x ys

/-- `similarities.sort(key=lambda x: x['similarity'], reverse=True)`:
Python's sort is stable, and a stable sort is extensionally determined by
the key order, so stable insertion sort models it exactly. -/
def sortDesc {σ : Type} [LinearOrder σ] :
    List (ScoredChunk σ) → List (ScoredChunk σ)
  | [] => []
  | x :: xs => insertDesc x (sortDesc xs)

/-- `search_relevant_chunks(query, paper_id, db, top_k)` given the already
computed query embedding (`none` models `generate_embedding` failing) and
the similarity function `sim` (the source passes `cosine_similarity`; the
model keeps it a parameter so the score type can stay generic).  Chunks
whose stored `embedding` is `NULL` are skipped by the `if chunk.embedding`
test; the decoded vectors round-trip losslessly through JSON in the model,
so the `except ... continue` path never fires. -/
def search_relevant_chunks {σ : Type} [LinearOrder σ]
    (sim : List ℚ → List ℚ → σ) (query_embedding : Option (List ℚ))
    (pid : Nat) (db : DB) (top_k : Nat) : List (ScoredChunk σ) :=
  match query_embedding with
  | none => []
  | some qe =>
      let chunks := db.chunks.filter (fun c => c.paper_id == pid)
      if chunks.isEmpty then []
      else
        let similarities := chunks.filterMap (fun c =>
          c.embedding.map (fun e => ScoredChunk.mk c.id c.content (sim qe e) c.chunk_index))
        (sortDesc similarities).take top_k

/-- The early answer of `generate_rag_response` for a paper id that does not
resolve. -/
def paperNotFoundMsg : List Char := "Error: Paper not found.".data

/-- The early answer of `generate_rag_response` when retrieval returned no
chunks. -/
def noRelevantInfoMsg : List Char :=
  "I couldn\x27t find relevant information in this paper to answer your question. The paper might not have been processed yet or your question might be outside the scope of this document.".data

/-- The template answer the generation branch builds (the source's f-string
over the paper title, the query and the first 500 characters of the
top-ranked chunk; no language-model call is made). -/
def mkRagAnswer (title query firstChunk : List Char) : List Char :=
  "Based on the research paper \"".data ++ title ++
    "\", here\x27s what I found regarding your question:\n\n".data ++ query ++
    "\n\nFrom the relevant sections of the paper:\n".data ++
    firstChunk.take 500 ++ "...\n\nThis information addresses your question by providing context from the paper\x27s content. The analysis is based on the most relevant sections that match your query.".data

/-- `generate_rag_response(query, paper_id, db)` with the query embedding
and similarity function as parameters, like `search_relevant_chunks`.
Result: the answer text, the ranked chunk ids, and an instrumentation flag
that is true exactly when the generation branch (context assembly and the
template answer) executed.  The `try` body of the source cannot raise, so
its `except` path is unreachable; `create_rag_context`'s output is built
and passed nowhere, so it is not modelled. -/
def generate_rag_response {σ : Type} [LinearOrder σ]
    (sim : List ℚ → List ℚ → σ) (query_embedding : Option (List ℚ))
    (query : List Char) (pid : Nat) (db : DB) :
    List Char × List Nat × Bool :=
  match findPaper db pid with
  | none => (paperNotFoundMsg, [], false)
  | some paper =>
      let relevant := search_relevant_chunks sim query_embedding pid db 5
      match relevant with
      | [] => (noRelevantInfoMsg, [], false)
      | top :: _ =>
          (mkRagAnswer paper.title query top.content,
           relevant.map (fun c => c.chunk_id), true)

/-- The filter of the active-session query in
`create_or_get_chat_session`. -/
def sessionMatches (uid pid : Nat) (s : SessionRec) : Bool :=
  s.user_id == uid && s.paper_id == pid && s.is_active

/-- `db.query(ChatSession).filter(user_id, paper_id, is_active).first()`. -/
def activeSessionFor (db : DB) (uid pid : Nat) : Option SessionRec :=
  db.sessions.find? (sessionMatches uid pid)

/-- The row `create_or_get_chat_session` inserts when no active session
exists: `is_active=True`, `chunks_processed=False`, both timestamp columns
defaulted to the current time. -/
def newSession (uid pid now freshSid newKey : Nat) : SessionRec :=
  { id := newKey, user_id := uid, paper_id := pid, session_id := freshSid,
    is_active := true, chunks_processed := false, created_at := now,
    last_interaction := now }

/-- `create_or_get_chat_session(user_id, paper_id, db)`.  `now` is the
clock value `datetime.utcnow()` returns (also the value the column defaults
`func.now()` take on insert), `freshSid` the generated UUID, `newKey` the
primary key the store assigns.  Updating the found session in place and
committing is modelled by rewriting the row with that primary key. -/
def create_or_get_chat_session (uid pid : Nat) (db : DB) (now : Nat)
    (freshSid newKey : Nat) : SessionRec × DB :=
  match activeSessionFor db uid pid with
  | some s =>
      let s' := { s with last_interaction := now }
      (s', { db with sessions := db.sessions.map (fun t => if t.id = s.id then s' else t) })
  | none =>
      let s := newSession uid pid now freshSid newKey
      (s, { db with sessions := db.sessions ++ [s] })

/-- The invariant "at most one active session per (user, document) pair". -/
def atMostOneActive (db : DB) : Prop :=
  ∀ uid pid, db.sessions.countP (sessionMatches uid pid) ≤ 1

/-- Sequencing of the page loop in `extract_text_from_pdf`: `none` as soon
as one `page.extract_text()` call raises (the accumulated text is then
discarded by the handler). -/
def seqPages : List (Option (List Char)) → Option (List (List Char))
  | [] => some []
  | none :: _ => none
  | some p :: rest => (seqPages rest).map (fun ps => p :: ps)

/-- The `try` block of `extract_text_from_pdf` with exceptions explicit: a
file is `none` when opening/parsing it raises (missing or unreadable),
otherwise the list of its pages' extraction outcomes.  On success the pages
are joined with `"\n"` and stripped. -/
def extractBody (file : Option (List (Option (List Char)))) : Option (List Char) :=
  match file with
  | none => none
  | some pages =>
      (seqPages pages).map (fun ps =>
        pyStrip (ps.foldl (fun acc p => acc ++ p ++ ['\n']) []))

/-- `extract_text_from_pdf(file_path)`: the `except` handler turns every
failure of the `try` block into a plain `""` return — the function never
lets an error escape. -/
def extract_text_from_pdf (file : Option (List (Option (List Char)))) : List Char :=
  (extractBody file).getD []

/-- The order the retrieval claim asserts on results: strictly higher score
first, ties by ascending passage index. -/
def rankedBefore {σ : Type} [LinearOrder σ] (a b : ScoredChunk σ) : Prop :=
  b.similarity < a.similarity ∨
    (a.similarity = b.similarity ∧ a.chunk_index < b.chunk_index)

/-- A one-paper database with no chunks and no sessions: the starting state
of the concrete scenarios below. -/
def paper1 : Paper := { id := 1, file_path := "paper.pdf".data, title := "T".data }

/-- See `paper1`. -/
def db1 : DB := { papers := [paper1], chunks := [], sessions := [] }

/-- A stored chunk for `paper1`, with no embedding. -/
def chunk1 : DBChunk :=
  { id := 10, paper_id := 1, chunk_index := 0, content := "hello".data,
    embedding := none, chunk_size := 5, overlap_size := 0, start_pos := 0,
    end_pos := 1000 }

/-- `db1` after `paper1` has one stored chunk. -/
def db1c : DB := { papers := [paper1], chunks := [chunk1], sessions := [] }

/-- Two embedded chunks for `paper1`, in index order. -/
def chunkA : DBChunk :=
  { id := 10, paper_id := 1, chunk_index := 0, content := ['a'],
    embedding := some [1], chunk_size := 1, overlap_size := 0, start_pos := 0,
    end_pos := 1 }

/-- See `chunkA`. -/
def chunkB : DBChunk :=
  { id := 11, paper_id := 1, chunk_index := 1, content := ['b'],
    embedding := some [2], chunk_size := 1, overlap_size := 200, start_pos := 1,
    end_pos := 2 }

/-- `db1` with two embedded chunks stored for `paper1`. -/
def db2c : DB := { papers := [paper1], chunks := [chunkA, chunkB], sessions := [] }

/-- Unfolding equation for one iteration of the chunking loop. -/
lemma chunkLoop_succ (t : List Char) (size overlap fuel : Nat) (start : Int)
    (idx : Nat) (acc : List Chunk) :
    chunkLoop t size overlap (fuel + 1) start idx acc =
      if start < (t.length : Int) then
        chunkLoop t size overlap fuel (nextStart t size overlap start)
          (nextIdx t size start idx) (nextChunks t size overlap start idx acc)
      else some acc := rfl

lemma rfindScan_replicate_ne {c : Char} (hc : c ≠ 'a') :
    ∀ (n i s e : Nat) (best : Int),
      rfindScan c (List.replicate n 'a') i s e best = best := by
  intro n
  induction n with
  | zero => intro i s e best; rfl
  | succ m ih =>
      intro i s e best
      rw [List.replicate_succ]
      show rfindScan c (List.replicate m 'a') (i + 1) s e
        (if s ≤ i ∧ i < e ∧ 'a' = c then (i : Int) else best) = best
      rw [if_neg fun h => hc h.2.2.symm]
      exact ih (i + 1) s e best

/-- In a text that is all `'a'`, `rfind` never finds a different character. -/
lemma pyRfind_replicate_ne {c : Char} (hc : c ≠ 'a') (n : Nat) (s e : Int) :
    pyRfind (List.replicate n 'a') c s e = -1 :=
  rfindScan_replicate_ne hc n 0 _ _ (-1)

lemma dropWhile_replicate_a (m : Nat) :
    List.dropWhile isPySpace (List.replicate m 'a') = List.replicate m 'a' := by
  cases m with
  | zero => rfl
  | succ k =>
      rw [List.replicate_succ, List.dropWhile_cons]
      simp [isPySpace]

lemma pyStrip_replicate_a (m : Nat) :
    pyStrip (List.replicate m 'a') = List.replicate m 'a' := by
  unfold pyStrip
  rw [dropWhile_replicate_a, List.reverse_replicate, dropWhile_replicate_a,
    List.reverse_replicate]

lemma chunkLoop_cycleText_eq_none :
    ∀ fuel (start : Int) (idx : Nat) (acc : List Chunk),
      start = 0 ∨ start = -2 ∨ start = -1 →
      chunkLoop cycleText 10 9 fuel start idx acc = none := by
  intro fuel
  induction fuel with
  | zero => intro start idx acc _; rfl
  | succ n ih =>
      rintro start idx acc (rfl | rfl | rfl) <;>
        · rw [chunkLoop_succ, if_pos (by decide)]
          exact ih _ _ _ (by decide)

/-- C1.  The claim asserts termination for every `0 ≤ overlap < size`.  The
code's own guard comment says the loop must not run forever, yet for
`size = 10`, `overlap = 9` on the 20-character normalized text
`"aaaaaa.aaaaaaaaaaaaa"` the start pointer cycles `0 → -2 → -1 → 0 → ⋯`
(sentence snapping cuts at 7, and `7 - 9 = -2` re-enters the loop through
Python's negative-index slice semantics), so no amount of fuel makes the
loop reach its exit: `chunk_text` diverges. -/
theorem chunk_text_diverges_when_overlap_exceeds_half :
    ∀ fuel, chunk_text cycleText 10 9 fuel = none := by
  intro fuel
  have hne : cycleText ≠ [] := by decide
  simp only [chunk_text, if_neg hne]
  exact chunkLoop_cycleText_eq_none fuel 0 0 [] (Or.inl rfl)

/-- The cut never lands in the front half of the window (for `1 ≤ size`). -/
lemma le_chunkEnd (t : List Char) (size : Nat) (start : Int) (h : 1 ≤ size) :
    start + ((size / 2 : Nat) : Int) + 1 ≤ chunkEnd t size start := by
  simp only [chunkEnd]
  split_ifs with h1 h2 h3 <;> omega

/-- With `overlap ≤ size / 2` the start pointer strictly advances. -/
lemma lt_nextStart (t : List Char) (size overlap : Nat) (start : Int)
    (hsize : 1 ≤ size) (hov : overlap ≤ size / 2) :
    start + 1 ≤ nextStart t size overlap start := by
  have h := le_chunkEnd t size start hsize
  simp only [nextStart]
  split_ifs with h1 <;> omega

lemma chunkLoop_isSome (t : List Char) (size overlap : Nat)
    (hsize : 1 ≤ size) (hov : overlap ≤ size / 2) :
    ∀ (fuel : Nat) (start : Int) (idx : Nat) (acc : List Chunk),
      (t.length : Int) ≤ start + (fuel : Int) →
      (chunkLoop t size overlap (fuel + 1) start idx acc).isSome := by
  intro fuel
  induction fuel with
  | zero =>
      intro start idx acc h
      rw [chunkLoop_succ, if_neg (by omega)]
      rfl
  | succ n ih =>
      intro start idx acc h
      rw [chunkLoop_succ]
      by_cases hc : start < (t.length : Int)
      · rw [if_pos hc]
        have hadv := lt_nextStart t size overlap start hsize hov
        exact ih _ _ _ (by omega)
      · rw [if_neg hc]
        rfl

/-- In the configuration `process_paper_for_rag` uses (`size = 1000`,
`overlap = 200`), fuel `length + 1` always reaches the loop's exit, so the
`getD` in the processing model discards nothing. -/
theorem chunk_text_defaults_isSome (t : List Char) :
    (chunk_text t 1000 200 (t.length + 1)).isSome := by
  by_cases h : t = []
  · simp only [chunk_text, if_pos h]
    rfl
  · rw [chunk_text, if_neg h]
    exact chunkLoop_isSome t 1000 200 (by norm_num) (by norm_num) t.length 0 0 []
      (by omega)

lemma length_t2400 : t2400.length = 2400 := List.length_replicate 2400 'a'

lemma length_t2400_int : ((t2400.length : Nat) : Int) = 2400 := by
  rw [length_t2400]; rfl

lemma t2400_ne_nil : t2400 ≠ [] :=
  List.ne_nil_of_length_pos (by rw [length_t2400]; norm_num)

lemma chunkEnd_t2400 (start : Int) (h0 : 0 ≤ start) :
    chunkEnd t2400 1000 start = start + 1000 := by
  have h1 : pyRfind t2400 '.' start (start + ((1000 : Nat) : Int)) = -1 :=
    pyRfind_replicate_ne (by decide) 2400 start _
  have h2 : pyRfind t2400 ' ' start (start + ((1000 : Nat) : Int)) = -1 :=
    pyRfind_replicate_ne (by decide) 2400 start _
  simp only [chunkEnd, h1, h2]
  split_ifs <;> omega

lemma pySlice_t2400 (s e : Int) (hs : 0 ≤ s) (he : 0 ≤ e) :
    pySlice t2400 s e = List.replicate (min e.toNat 2400 - s.toNat) 'a' := by
  simp only [pySlice, pyIdx, t2400, List.length_replicate]
  rw [if_neg (by omega), if_neg (by omega)]
  rw [List.take_replicate, List.drop_replicate]
  congr 1
  omega

lemma chunkContent_t2400_0 : chunkContent t2400 1000 0 = List.replicate 1000 'a' := by
  rw [chunkContent, chunkEnd_t2400 0 (by norm_num),
    pySlice_t2400 0 _ (by norm_num) (by norm_num)]
  norm_num
  exact pyStrip_replicate_a 1000

lemma chunkContent_t2400_800 : chunkContent t2400 1000 800 = List.replicate 1000 'a' := by
  rw [chunkContent, chunkEnd_t2400 800 (by norm_num),
    pySlice_t2400 800 _ (by norm_num) (by norm_num)]
  norm_num
  exact pyStrip_replicate_a 1000

lemma chunkContent_t2400_1600 : chunkContent t2400 1000 1600 = List.replicate 800 'a' := by
  rw [chunkContent, chunkEnd_t2400 1600 (by norm_num),
    pySlice_t2400 1600 _ (by norm_num) (by norm_num)]
  norm_num
  exact pyStrip_replicate_a 800

lemma nextStart_t2400_0 : nextStart t2400 1000 200 0 = 800 := by
  simp only [nextStart, chunkEnd_t2400 0 (by norm_num)]
  rw [if_pos (by rw [length_t2400_int]; norm_num)]
  norm_num

lemma nextStart_t2400_800 : nextStart t2400 1000 200 800 = 1600 := by
  simp only [nextStart, chunkEnd_t2400 800 (by norm_num)]
  rw [if_pos (by rw [length_t2400_int]; norm_num)]
  norm_num

lemma nextStart_t2400_1600 : nextStart t2400 1000 200 1600 = 2600 := by
  simp only [nextStart, chunkEnd_t2400 1600 (by norm_num)]
  rw [if_neg (by rw [length_t2400_int]; norm_num)]
  norm_num

lemma replicate_1000_ne_nil : List.replicate 1000 'a' ≠ [] :=
  List.ne_nil_of_length_pos (by rw [List.length_replicate]; norm_num)

lemma replicate_800_ne_nil : List.replicate 800 'a' ≠ [] :=
  List.ne_nil_of_length_pos (by rw [List.length_replicate]; norm_num)

lemma nextIdx_t2400_0 (idx : Nat) : nextIdx t2400 1000 0 idx = idx + 1 := by
  rw [nextIdx, if_neg (by rw [chunkContent_t2400_0]; exact replicate_1000_ne_nil)]

lemma nextIdx_t2400_800 (idx : Nat) : nextIdx t2400 1000 800 idx = idx + 1 := by
  rw [nextIdx, if_neg (by rw [chunkContent_t2400_800]; exact replicate_1000_ne_nil)]

lemma nextIdx_t2400_1600 (idx : Nat) : nextIdx t2400 1000 1600 idx = idx + 1 := by
  rw [nextIdx, if_neg (by rw [chunkContent_t2400_1600]; exact replicate_800_ne_nil)]

lemma nextChunks_t2400_0 (acc : List Chunk) :
    nextChunks t2400 1000 200 0 0 acc =
      acc ++ [⟨List.replicate 1000 'a', 0, 1000, 0, 0, 1000⟩] := by
  simp only [nextChunks, chunkContent_t2400_0, chunkEnd_t2400 0 (by norm_num)]
  rw [if_neg replicate_1000_ne_nil]
  norm_num

lemma nextChunks_t2400_800 (acc : List Chunk) :
    nextChunks t2400 1000 200 800 1 acc =
      acc ++ [⟨List.replicate 1000 'a', 1, 1000, 200, 800, 1800⟩] := by
  simp only [nextChunks, chunkContent_t2400_800, chunkEnd_t2400 800 (by norm_num)]
  rw [if_neg replicate_1000_ne_nil]
  norm_num

lemma nextChunks_t2400_1600 (acc : List Chunk) :
    nextChunks t2400 1000 200 1600 2 acc =
      acc ++ [⟨List.replicate 800 'a', 2, 800, 200, 1600, 2600⟩] := by
  simp only [nextChunks, chunkContent_t2400_1600, chunkEnd_t2400 1600 (by norm_num)]
  rw [if_neg replicate_800_ne_nil]
  norm_num

/-- The full run of `chunk_text` on the 2,400-character no-boundary text
with the default `size = 1000`, `overlap = 200`. -/
lemma chunk_text_t2400_eq :
    chunk_text t2400 1000 200 4 =
      some [⟨List.replicate 1000 'a', 0, 1000, 0, 0, 1000⟩,
            ⟨List.replicate 1000 'a', 1, 1000, 200, 800, 1800⟩,
            ⟨List.replicate 800 'a', 2, 800, 200, 1600, 2600⟩] := by
  rw [chunk_text, if_neg t2400_ne_nil]
  rw [show (4 : Nat) = 3 + 1 from rfl, chunkLoop_succ,
    if_pos (by rw [length_t2400_int]; norm_num)]
  rw [nextStart_t2400_0, nextIdx_t2400_0, nextChunks_t2400_0]
  rw [show (3 : Nat) = 2 + 1 from rfl, chunkLoop_succ,
    if_pos (by rw [length_t2400_int]; norm_num)]
  rw [nextStart_t2400_800, show (0 + 1 : Nat) = 1 from rfl, nextIdx_t2400_800,
    nextChunks_t2400_800]
  rw [show (2 : Nat) = 1 + 1 from rfl, chunkLoop_succ,
    if_pos (by rw [length_t2400_int]; norm_num)]
  rw [nextStart_t2400_1600, show (1 + 1 : Nat) = 2 from rfl, nextIdx_t2400_1600,
    nextChunks_t2400_1600]
  rw [chunkLoop_succ, if_neg (by rw [length_t2400_int]; norm_num)]
  rfl

/-- C7 (amended).  On 2,400 characters with no sentence terminator and no
word boundary, `chunk_text(text, 1000, 200)` emits exactly 3 passages with
recorded spans `[0,1000)`, `[800,1800)` and `[1600,2600)`: the loop records
the raw window end `start + chunk_size = 2600` for the last passage even
though its content is the 800 characters `text[1600:2400]`. -/
theorem chunk_text_end_to_end_2400 :
    chunk_text t2400 1000 200 4 =
      some [⟨List.replicate 1000 'a', 0, 1000, 0, 0, 1000⟩,
            ⟨List.replicate 1000 'a', 1, 1000, 200, 800, 1800⟩,
            ⟨List.replicate 800 'a', 2, 800, 200, 1600, 2600⟩] :=
  chunk_text_t2400_eq

/-- C7, as stated, is false: the claimed recorded spans end with
`[1600,2400)`, but the code records `end_pos = 2600` for the third passage
of the 2,400-character no-boundary text. -/
theorem chunk_text_2400_claimed_spans_false :
    (chunk_text t2400 1000 200 4).map
        (fun l => l.map fun c => (c.start_pos, c.end_pos)) ≠
      some [(0, 1000), (800, 1800), (1600, 2400)] := by
  rw [chunk_text_t2400_eq]
  decide

lemma sumSq_nonneg (a : List ℚ) : 0 ≤ sumSq a := by
  apply List.sum_nonneg
  intro x hx
  obtain ⟨y, -, rfl⟩ := List.mem_map.mp hx
  exact mul_self_nonneg y

lemma norm2_pos {a : List ℚ} (h : sumSq a ≠ 0) : 0 < norm2 a := by
  apply Real.sqrt_pos.mpr
  have h0 : 0 < sumSq a := lt_of_le_of_ne (sumSq_nonneg a) (Ne.symm h)
  exact_mod_cast h0

/-- C5.  `cosine_similarity` returns exactly `0` whenever either vector has
zero (sum-of-squares, equivalently Euclidean) norm, and on same-length
vectors with non-zero norms it returns `dot(a,b) / (‖a‖·‖b‖)` with a
non-zero divisor, so the division branch never divides by zero. -/
theorem cosine_similarity_spec (a b : List ℚ) :
    (sumSq a = 0 ∨ sumSq b = 0 → cosine_similarity a b = 0) ∧
    (a.length = b.length → a ≠ [] → sumSq a ≠ 0 → sumSq b ≠ 0 →
      cosine_similarity a b = (dotP a b : ℝ) / (norm2 a * norm2 b) ∧
        norm2 a * norm2 b ≠ 0) := by
  constructor
  · intro h
    simp only [cosine_similarity]
    split_ifs <;> rfl
  · intro hlen hane ha hb
    have hbne : b ≠ [] := by
      intro hb0
      rw [hb0] at hlen
      exact hane (List.length_eq_zero.mp hlen)
    have hdiv : norm2 a * norm2 b ≠ 0 :=
      ne_of_gt (mul_pos (norm2_pos ha) (norm2_pos hb))
    refine ⟨?_, hdiv⟩
    rw [cosine_similarity, if_neg ?_, if_neg (by omega), if_neg (by tauto)]
    simp [List.isEmpty_iff, hane, hbne]

/-- C10.  `cosine_similarity` is total — every guard ends in a plain value —
and the guards for empty input and for the shape-mismatch `ValueError` that
`np.dot` raises (caught by the handler) both yield exactly `0`. -/
theorem cosine_similarity_total_guards (a b : List ℚ) :
    (a = [] ∨ b = [] → cosine_similarity a b = 0) ∧
    (a.length ≠ b.length → cosine_similarity a b = 0) := by
  constructor
  · intro h
    rw [cosine_similarity, if_pos]
    rcases h with h | h <;> simp [h]
  · intro h
    simp only [cosine_similarity]
    split_ifs <;> rfl

/-- Witness for C5 at `a = b = [1]`. -/
theorem cosine_similarity_spec_witness :
    cosine_similarity [1] [1] = (dotP [1] [1] : ℝ) / (norm2 [1] * norm2 [1]) ∧
      norm2 [1] * norm2 [1] ≠ 0 :=
  (cosine_similarity_spec [1] [1]).2 rfl (List.cons_ne_nil 1 [])
    (by norm_num [sumSq]) (by norm_num [sumSq])

/-- Witness for C10 at an empty and a mismatched pair. -/
theorem cosine_similarity_total_guards_witness :
    cosine_similarity [] [1] = 0 ∧ cosine_similarity [1, 2] [1] = 0 :=
  ⟨(cosine_similarity_total_guards [] [1]).1 (Or.inl rfl),
   (cosine_similarity_total_guards [1, 2] [1]).2 (by norm_num)⟩

/-- C2 (amended).  Whenever `process_paper_for_rag` returns failure the
database is unchanged: no passage for the document becomes visible, the
document stays unprocessed and the next call retries from scratch.  In
particular a failing batch commit (`commitOk = false`) never leaves partial
state.  (Embedding unavailability is not a failure — see the
counterexample theorem.) -/
theorem process_paper_failure_rolls_back (pid : Nat) (db : DB)
    (extract : List Char → List Char) (embed : List Char → Option (List ℚ))
    (commitOk : Bool) (nextId : Nat) :
    ((process_paper_for_rag pid db extract embed commitOk nextId).1 = false →
      (process_paper_for_rag pid db extract embed commitOk nextId).2 = db) ∧
    (commitOk = false →
      (process_paper_for_rag pid db extract embed commitOk nextId).2 = db) := by
  simp only [process_paper_for_rag]
  split
  · exact ⟨fun _ => rfl, fun _ => rfl⟩
  · split_ifs with h1 h2 h3 h4
    · exact ⟨fun _ => rfl, fun _ => rfl⟩
    · exact ⟨fun h => by simp at h, fun _ => rfl⟩
    · exact ⟨fun _ => rfl, fun _ => rfl⟩
    · exact ⟨fun h => by simp at h, fun hc => by rw [hc] at h4; exact absurd h4 (by simp)⟩
    · exact ⟨fun _ => rfl, fun _ => rfl⟩

/-- C2's claim, as stated, is false for the embedding step: when the
embedding provider fails (returns no vector) for every passage, the
operation still persists the passages — with `NULL` embeddings — commits,
and returns success, so the document is *not* rolled back and *not*
eligible for a retry. -/
theorem process_embedding_failure_not_rolled_back :
    (process_paper_for_rag 1 db1 (fun _ => "hello".data) (fun _ => none) true 10).1
        = true ∧
    (process_paper_for_rag 1 db1 (fun _ => "hello".data) (fun _ => none) true 10).2.chunks.map
        (fun c => c.embedding) = [none] := by
  exact ⟨rfl, rfl⟩

/-- Witness for C2 at two concrete failing runs: a missing paper id, and a
failing commit on a successful pipeline. -/
theorem process_paper_failure_rolls_back_witness :
    (process_paper_for_rag 2 db1 (fun _ => "x".data) (fun _ => none) true 10).2 = db1 ∧
    (process_paper_for_rag 1 db1 (fun _ => "x".data) (fun _ => none) false 10).2 = db1 :=
  ⟨(process_paper_failure_rolls_back 2 db1 (fun _ => "x".data) (fun _ => none) true 10).1 rfl,
   (process_paper_failure_rolls_back 1 db1 (fun _ => "x".data) (fun _ => none) false 10).2 rfl⟩

/-- C3 (amended).  Whenever any passage already exists for the document,
`ensure_paper_processed` returns success immediately with the database
unchanged and no pipeline step (extraction, chunking, embedding) runs.  So
a second call after a first call that persisted at least one passage is a
no-op; the claim's unconditional "exactly once" fails only in the
degenerate run shown in the counterexample theorem. -/
theorem ensure_presence_short_circuits (pid : Nat) (db : DB)
    (extract : List Char → List Char) (embed : List Char → Option (List ℚ))
    (commitOk : Bool) (nextId : Nat)
    (h : (findChunkFor db pid).isSome) :
    ensure_paper_processed pid db extract embed commitOk nextId = (true, db) ∧
    pipelineRuns pid db = false := by
  constructor
  · rw [ensure_paper_processed, if_pos h]
  · obtain ⟨c, hc⟩ := Option.isSome_iff_exists.mp h
    unfold pipelineRuns
    split
    · rfl
    · simp [hc]

/-- C3's claim, as stated, is false in the degenerate case: a document
whose extracted text cleans to nothing (here one NUL byte) is "processed"
successfully with zero persisted passages, so the presence check fails
again and a second `ensure_paper_processed` call re-runs extraction — the
pipeline executes twice, once per call, both calls returning success. -/
theorem ensure_twice_runs_pipeline_twice :
    pipelineRuns 1 db1 = true ∧
    ensure_paper_processed 1 db1 (fun _ => ['\x00']) (fun _ => none) true 10 = (true, db1) ∧
    pipelineRuns 1
      (ensure_paper_processed 1 db1 (fun _ => ['\x00']) (fun _ => none) true 10).2 = true := by
  exact ⟨rfl, rfl, rfl⟩

/-- Witness for C3 on a database that already holds a passage. -/
theorem ensure_presence_short_circuits_witness :
    ensure_paper_processed 1 db1c (fun _ => "x".data) (fun _ => none) true 10 = (true, db1c) ∧
    pipelineRuns 1 db1c = false :=
  ensure_presence_short_circuits 1 db1c (fun _ => "x".data) (fun _ => none) true 10 rfl

/-- C9 (amended).  `extract_text_from_pdf` signals failure by returning the
empty string (there is no `ExtractionError`; every exception inside it is
caught), and its caller treats the empty string as a processing failure:
`process_paper_for_rag` returns `false` with the database unchanged, so an
extraction failure is never visible as "zero relevant passages". -/
theorem extract_empty_means_processing_failure
    (file : Option (List (Option (List Char)))) (pid : Nat) (db : DB)
    (embed : List Char → Option (List ℚ)) (commitOk : Bool) (nextId : Nat)
    (hnochunk : findChunkFor db pid = none)
    (hempty : extract_text_from_pdf file = []) :
    process_paper_for_rag pid db (fun _ => extract_text_from_pdf file) embed
      commitOk nextId = (false, db) := by
  simp only [process_paper_for_rag]
  split
  · rfl
  · split_ifs with h1 h2
    · rfl
    · rw [hnochunk] at h2; exact absurd h2 (by simp)
    · rfl

/-- C9, as stated, is false about the failure channel: a missing or
unreadable file (`none`) makes the `try` block raise, but the handler
swallows the error and the function returns the empty string as an
ordinary value — and a parseable PDF whose pages hold only whitespace also
returns the empty string — instead of signalling an `ExtractionError`. -/
theorem extract_failure_returns_empty_not_error :
    extractBody none = none ∧
    extract_text_from_pdf none = [] ∧
    extract_text_from_pdf (some [some [' ']]) = [] := by
  exact ⟨rfl, rfl, rfl⟩

/-- Witness for C9: a missing file against the one-paper database. -/
theorem extract_empty_means_processing_failure_witness :
    process_paper_for_rag 1 db1 (fun _ => extract_text_from_pdf none)
      (fun _ => none) true 10 = (false, db1) :=
  extract_empty_means_processing_failure none 1 db1 (fun _ => none) true 10 rfl rfl

/-- C6 (amended).  When retrieval finds zero relevant passages for an
existing paper, `generate_rag_response` returns early with the fixed
"no relevant information" message and an empty passage-id list — the
caller is signalled through that distinguished result — and the generation
branch does not execute. -/
theorem generate_rag_empty_context_early_return {σ : Type} [LinearOrder σ]
    (sim : List ℚ → List ℚ → σ) (qe : Option (List ℚ)) (query : List Char)
    (pid : Nat) (db : DB) (paper : Paper)
    (hp : findPaper db pid = some paper)
    (hs : search_relevant_chunks sim qe pid db 5 = []) :
    generate_rag_response sim qe query pid db = (noRelevantInfoMsg, [], false) := by
  simp only [generate_rag_response, hp, hs]

/-- C6's claim, as stated, is false: on a processed-but-chunkless paper the
pipeline stops before generation (instrumentation flag `false`) instead of
proceeding to generation with empty context. -/
theorem generate_rag_zero_chunks_skips_generation :
    generate_rag_response (fun _ _ => (0 : ℚ)) (some [1]) ['q'] 1 db1 =
      (noRelevantInfoMsg, [], false) := by
  rfl

/-- Witness for C6 on the one-paper database with a failing query
embedding. -/
theorem generate_rag_empty_context_early_return_witness :
    generate_rag_response (fun _ _ => (0 : ℚ)) none ['q'] 1 db1 =
      (noRelevantInfoMsg, [], false) :=
  generate_rag_empty_context_early_return (fun _ _ => (0 : ℚ)) none ['q'] 1 db1
    paper1 rfl rfl

lemma mem_insertDesc {σ : Type} [LinearOrder σ] (x z : ScoredChunk σ)
    (l : List (ScoredChunk σ)) : z ∈ insertDesc x l ↔ z = x ∨ z ∈ l := by
  induction l with
  | nil => simp [insertDesc]
  | cons y ys ih =>
      rw [insertDesc]
      split_ifs with h
      · simp [List.mem_cons]
      · simp only [List.mem_cons, ih]
        tauto

lemma length_insertDesc {σ : Type} [LinearOrder σ] (x : ScoredChunk σ)
    (l : List (ScoredChunk σ)) : (insertDesc x l).length = l.length + 1 := by
  induction l with
  | nil => rfl
  | cons y ys ih =>
      rw [insertDesc]
      split_ifs with h
      · rfl
      · simp [ih]

lemma length_sortDesc {σ : Type} [LinearOrder σ] (l : List (ScoredChunk σ)) :
    (sortDesc l).length = l.length := by
  induction l with
  | nil => rfl
  | cons x xs ih => rw [sortDesc, length_insertDesc, ih, List.length_cons]

lemma mem_sortDesc {σ : Type} [LinearOrder σ] (z : ScoredChunk σ)
    (l : List (ScoredChunk σ)) : z ∈ sortDesc l ↔ z ∈ l := by
  induction l with
  | nil => simp [sortDesc]
  | cons x xs ih =>
      rw [sortDesc, mem_insertDesc, ih, List.mem_cons]

lemma rankedBefore_sim_le {σ : Type} [LinearOrder σ] {a b : ScoredChunk σ}
    (h : rankedBefore a b) : b.similarity ≤ a.similarity := by
  rcases h with h | ⟨h, -⟩
  · exact le_of_lt h
  · exact le_of_eq h.symm

lemma pairwise_insertDesc {σ : Type} [LinearOrder σ] (x : ScoredChunk σ)
    (l : List (ScoredChunk σ)) (hl : l.Pairwise rankedBefore)
    (hx : ∀ y ∈ l, x.chunk_index < y.chunk_index) :
    (insertDesc x l).Pairwise rankedBefore := by
  induction l with
  | nil => simp [insertDesc, rankedBefore]
  | cons y ys ih =>
      rw [List.pairwise_cons] at hl
      rw [insertDesc]
      split_ifs with h
      · refine List.Pairwise.cons ?_ (List.pairwise_cons.mpr hl)
        intro z hz
        rcases List.mem_cons.mp hz with rfl | hz'
        · rcases lt_or_eq_of_le h with hlt | heq
          · exact Or.inl hlt
          · exact Or.inr ⟨heq.symm, hx z (List.mem_cons_self z ys)⟩
        · have hzy : z.similarity ≤ y.similarity :=
            rankedBefore_sim_le (hl.1 z hz')
          rcases lt_or_eq_of_le (le_trans hzy h) with hlt | heq
          · exact Or.inl hlt
          · exact Or.inr ⟨heq.symm, hx z (List.mem_cons_of_mem y hz')⟩
      · refine List.Pairwise.cons ?_ (ih hl.2 (fun z hz => hx z (List.mem_cons_of_mem y hz)))
        intro z hz
        rcases (mem_insertDesc x z ys).mp hz with rfl | hz'
        · exact Or.inl (lt_of_not_le h)
        · exact hl.1 z hz'

lemma pairwise_sortDesc {σ : Type} [LinearOrder σ] (l : List (ScoredChunk σ))
    (h : l.Pairwise (fun a b => a.chunk_index < b.chunk_index)) :
    (sortDesc l).Pairwise rankedBefore := by
  induction l with
  | nil => simp [sortDesc]
  | cons x xs ih =>
      rw [List.pairwise_cons] at h
      rw [sortDesc]
      refine pairwise_insertDesc x _ (ih h.2) ?_
      intro y hy
      exact h.1 y ((mem_sortDesc y xs).mp hy)

lemma pairwise_filterMap {α β : Type} (f : α → Option β) (R : α → α → Prop)
    (S : β → β → Prop)
    (hf : ∀ a b x y, R a b → f a = some x → f b = some y → S x y) :
    ∀ l : List α, l.Pairwise R → (l.filterMap f).Pairwise S := by
  intro l
  induction l with
  | nil => intro _; simp
  | cons a as ih =>
      intro h
      rw [List.pairwise_cons] at h
      rw [List.filterMap_cons]
      cases hfa : f a with
      | none => exact ih h.2
      | some x =>
          refine List.Pairwise.cons ?_ (ih h.2)
          intro y hy
          obtain ⟨b, hb, hby⟩ := List.mem_filterMap.mp hy
          exact hf a b x y (h.1 b hb) hfa hby

lemma length_filterMap_embedded {σ : Type} (g : DBChunk → List ℚ → ScoredChunk σ) :
    ∀ l : List DBChunk,
      (l.filterMap (fun c => c.embedding.map (g c))).length =
        (l.filter (fun c => c.embedding.isSome)).length := by
  intro l
  induction l with
  | nil => rfl
  | cons c cs ih =>
      rw [List.filterMap_cons, List.filter_cons]
      cases hce : c.embedding with
      | none => simpa [hce] using ih
      | some e => simpa [hce] using ih

/-- C4.  For a database whose stored chunks for the document are in
ascending `chunk_index` order (the order `process_paper_for_rag` persists
them and the unordered SELECT returns them), `search_relevant_chunks` is
sorted by score descending with ties broken by ascending passage index —
deterministic output — and `top_k` truncates: the result length is
`min top_k (number of vectorized passages)`, so asking for more than exist
returns them all. -/
theorem search_sorted_ties_truncated {σ : Type} [LinearOrder σ]
    (sim : List ℚ → List ℚ → σ) (qe : List ℚ) (pid : Nat) (db : DB) (k : Nat)
    (hord : (db.chunks.filter (fun c => c.paper_id == pid)).Pairwise
      (fun a b => a.chunk_index < b.chunk_index)) :
    (search_relevant_chunks sim (some qe) pid db k).Pairwise rankedBefore ∧
    (search_relevant_chunks sim (some qe) pid db k).length =
      min k ((db.chunks.filter (fun c => c.paper_id == pid)).filter
        (fun c => c.embedding.isSome)).length := by
  by_cases he : (db.chunks.filter (fun c => c.paper_id == pid)).isEmpty
  · have hnil : db.chunks.filter (fun c => c.paper_id == pid) = [] :=
      List.isEmpty_iff.mp he
    simp [search_relevant_chunks, he, hnil]
  · have hsorted :
        (sortDesc ((db.chunks.filter (fun c => c.paper_id == pid)).filterMap
          (fun c => c.embedding.map
            (fun e => ScoredChunk.mk c.id c.content (sim qe e) c.chunk_index)))).Pairwise
          rankedBefore := by
      refine pairwise_sortDesc _ ?_
      refine pairwise_filterMap _ (fun a b => a.chunk_index < b.chunk_index) _
        ?_ _ hord
      intro a b x y hR hxa hyb
      obtain ⟨ea, -, rfl⟩ := Option.map_eq_some.mp hxa
      obtain ⟨eb, -, rfl⟩ := Option.map_eq_some.mp hyb
      exact hR
    constructor
    · simp only [search_relevant_chunks, if_neg he]
      exact hsorted.sublist (List.take_sublist k _)
    · simp only [search_relevant_chunks, if_neg he]
      rw [List.length_take, length_sortDesc, length_filterMap_embedded]

/-- Witness for C4 on two equal-scored chunks (constant similarity):
deterministic tie-breaking by index and truncation by `top_k = 5`. -/
theorem search_sorted_ties_truncated_witness :
    (search_relevant_chunks (fun _ _ => (0 : ℚ)) (some [1]) 1 db2c 5).Pairwise
      rankedBefore ∧
    (search_relevant_chunks (fun _ _ => (0 : ℚ)) (some [1]) 1 db2c 5).length =
      min 5 ((db2c.chunks.filter (fun c => c.paper_id == 1)).filter
        (fun c => c.embedding.isSome)).length :=
  search_sorted_ties_truncated (fun _ _ => (0 : ℚ)) [1] 1 db2c 5 (by decide)

/-- Rewriting the row with the found session's primary key keeps `find?`
pointing at its (updated) first occurrence, provided the key identifies the
row uniquely. -/
lemma find?_map_update (l : List SessionRec) (p : SessionRec → Bool)
    (s s' : SessionRec) (hfind : l.find? p = some s) (hps' : p s' = p s)
    (hid : ∀ t ∈ l, t.id = s.id → t = s) :
    (l.map (fun t => if t.id = s.id then s' else t)).find? p = some s' := by
  induction l with
  | nil => simp at hfind
  | cons a as ih =>
      by_cases hpa : p a = true
      · rw [List.find?_cons_of_pos as hpa] at hfind
        have has : a = s := by injection hfind
        subst has
        rw [List.map_cons, if_pos rfl]
        exact List.find?_cons_of_pos _ (by rw [hps', hpa])
      · rw [List.find?_cons_of_neg as hpa] at hfind
        have hps : p s = true := List.find?_some hfind
        have hane : a.id ≠ s.id := by
          intro hidq
          have : a = s := hid a (List.mem_cons_self a as) hidq
          rw [this] at hpa
          exact hpa hps
        rw [List.map_cons, if_neg hane]
        rw [List.find?_cons_of_neg _ hpa]
        exact ih hfind (fun t ht => hid t (List.mem_cons_of_mem a ht))

/-- Rewriting the uniquely keyed row with one that the matcher judges the
same leaves every matcher count unchanged. -/
lemma countP_map_update (l : List SessionRec) (q : SessionRec → Bool)
    (key : Nat) (s s' : SessionRec) (hq : q s' = q s)
    (hid : ∀ t ∈ l, t.id = key → t = s) :
    (l.map (fun t => if t.id = key then s' else t)).countP q = l.countP q := by
  rw [List.countP_map]
  apply List.countP_congr
  intro t ht
  by_cases h : t.id = key
  · have hts : t = s := hid t ht h
    subst hts
    simp [h, hq]
  · simp [h]

lemma sessionMatches_update (uid pid : Nat) (s : SessionRec) (t : Nat) :
    sessionMatches uid pid { s with last_interaction := t } =
      sessionMatches uid pid s := rfl

/-- C8.  Calling `create_or_get_chat_session` twice in a row for the same
`(user_id, paper_id)` — against a database with unique primary keys, a
fresh key for a possible insert, a monotone clock and at most one active
session per pair — returns a session with the same `session_id` both
times, stamps `last_interaction` with the two call times (so it advances
monotonically), and preserves the at-most-one-active-session invariant. -/
theorem create_or_get_twice_same_session (db : DB)
    (uid pid t1 t2 sid1 key1 sid2 key2 : Nat)
    (hnodup : (db.sessions.map SessionRec.id).Nodup)
    (hkey : key1 ∉ db.sessions.map SessionRec.id)
    (ht : t1 ≤ t2)
    (hinv : atMostOneActive db) :
    (create_or_get_chat_session uid pid
        (create_or_get_chat_session uid pid db t1 sid1 key1).2 t2 sid2 key2).1.session_id =
      (create_or_get_chat_session uid pid db t1 sid1 key1).1.session_id ∧
    (create_or_get_chat_session uid pid db t1 sid1 key1).1.last_interaction = t1 ∧
    (create_or_get_chat_session uid pid
        (create_or_get_chat_session uid pid db t1 sid1 key1).2 t2 sid2 key2).1.last_interaction = t2 ∧
    (create_or_get_chat_session uid pid db t1 sid1 key1).1.last_interaction ≤
      (create_or_get_chat_session uid pid
        (create_or_get_chat_session uid pid db t1 sid1 key1).2 t2 sid2 key2).1.last_interaction ∧
    atMostOneActive (create_or_get_chat_session uid pid
        (create_or_get_chat_session uid pid db t1 sid1 key1).2 t2 sid2 key2).2 := by
  cases hfind : activeSessionFor db uid pid with
  | some s =>
      have hmem : s ∈ db.sessions := List.mem_of_find?_eq_some hfind
      have hid : ∀ t ∈ db.sessions, t.id = s.id → t = s := fun t ht h =>
        List.inj_on_of_nodup_map hnodup ht hmem h
      have hr1 : create_or_get_chat_session uid pid db t1 sid1 key1 =
          ({ s with last_interaction := t1 },
           { db with sessions := (db.sessions.map
               (fun t => if t.id = s.id then { s with last_interaction := t1 } else t)) }) := by
        simp only [create_or_get_chat_session, hfind]
      have hfind1 :
          activeSessionFor
            { db with sessions := (db.sessions.map
                (fun t => if t.id = s.id then { s with last_interaction := t1 } else t)) }
            uid pid = some { s with last_interaction := t1 } :=
        find?_map_update db.sessions (sessionMatches uid pid) s _ hfind
          (sessionMatches_update uid pid s t1) hid
      have hid1 : ∀ t ∈ (db.sessions.map
            (fun t => if t.id = s.id then { s with last_interaction := t1 } else t)),
          t.id = s.id → t = { s with last_interaction := t1 } := by
        intro t ht hteq
        obtain ⟨u, hu, rfl⟩ := List.mem_map.mp ht
        by_cases h : u.id = s.id
        · rw [if_pos h]
        · rw [if_neg h] at hteq ⊢
          exact absurd (hid u hu hteq) fun hus => h (by rw [hus])
      have hr2 : create_or_get_chat_session uid pid
          (create_or_get_chat_session uid pid db t1 sid1 key1).2 t2 sid2 key2 =
          ({ s with last_interaction := t2 },
           { db with sessions := ((db.sessions.map
               (fun t => if t.id = s.id then { s with last_interaction := t1 } else t)).map
                 (fun t => if t.id = s.id then { s with last_interaction := t2 } else t)) }) := by
        rw [hr1]
        simp only [create_or_get_chat_session, hfind1]
      rw [hr2, hr1]
      refine ⟨rfl, rfl, rfl, ht, ?_⟩
      intro u p
      have hmem1 : { s with last_interaction := t1 } ∈ db.sessions.map
          (fun t => if t.id = s.id then { s with last_interaction := t1 } else t) := by
        refine List.mem_map.mpr ⟨s, hmem, ?_⟩
        rw [if_pos rfl]
      show (List.countP (sessionMatches u p) _) ≤ 1
      rw [countP_map_update _ (sessionMatches u p) s.id { s with last_interaction := t1 }
          { s with last_interaction := t2 } rfl hid1,
        countP_map_update _ (sessionMatches u p) s.id s { s with last_interaction := t1 } rfl hid]
      exact hinv u p
  | none =>
      have hnew : sessionMatches uid pid (newSession uid pid t1 sid1 key1) = true := by
        simp [sessionMatches, newSession]
      have hr1 : create_or_get_chat_session uid pid db t1 sid1 key1 =
          (newSession uid pid t1 sid1 key1,
           { db with sessions := db.sessions ++ [newSession uid pid t1 sid1 key1] }) := by
        simp only [create_or_get_chat_session, hfind]
      have hfind1 :
          activeSessionFor
            { db with sessions := db.sessions ++ [newSession uid pid t1 sid1 key1] }
            uid pid = some (newSession uid pid t1 sid1 key1) := by
        show (db.sessions ++ [newSession uid pid t1 sid1 key1]).find?
          (sessionMatches uid pid) = _
        rw [List.find?_append,
          show db.sessions.find? (sessionMatches uid pid) = none from hfind,
          List.find?_cons_of_pos _ hnew]
        rfl
      have hid1 : ∀ t ∈ db.sessions ++ [newSession uid pid t1 sid1 key1],
          t.id = (newSession uid pid t1 sid1 key1).id →
            t = newSession uid pid t1 sid1 key1 := by
        intro t ht hteq
        rcases List.mem_append.mp ht with htl | htr
        · have hm : t.id ∈ List.map SessionRec.id db.sessions :=
            List.mem_map_of_mem SessionRec.id htl
          rw [hteq] at hm
          exact absurd hm hkey
        · exact List.mem_singleton.mp htr
      have hr2 : create_or_get_chat_session uid pid
          (create_or_get_chat_session uid pid db t1 sid1 key1).2 t2 sid2 key2 =
          ({ newSession uid pid t1 sid1 key1 with last_interaction := t2 },
           { db with sessions := ((db.sessions ++ [newSession uid pid t1 sid1 key1]).map
               (fun t => if t.id = (newSession uid pid t1 sid1 key1).id then
                 { newSession uid pid t1 sid1 key1 with last_interaction := t2 } else t)) }) := by
        rw [hr1]
        simp only [create_or_get_chat_session, hfind1]
      rw [hr2, hr1]
      refine ⟨rfl, rfl, rfl, ht, ?_⟩
      intro u p
      show (List.countP (sessionMatches u p) _) ≤ 1
      rw [countP_map_update _ (sessionMatches u p) (newSession uid pid t1 sid1 key1).id
          (newSession uid pid t1 sid1 key1)
          { newSession uid pid t1 sid1 key1 with last_interaction := t2 } rfl hid1,
        List.countP_append]
      by_cases hup : sessionMatches u p (newSession uid pid t1 sid1 key1) = true
      · have huu : uid = u ∧ pid = p := by
          simpa [sessionMatches, newSession] using hup
        obtain ⟨rfl, rfl⟩ := huu
        have hzero : db.sessions.countP (sessionMatches uid pid) = 0 :=
          List.countP_eq_zero.mpr (List.find?_eq_none.mp hfind)
        have hone : List.countP (sessionMatches uid pid)
            [newSession uid pid t1 sid1 key1] ≤ 1 :=
          List.countP_le_length _
        omega
      · have hzero : List.countP (sessionMatches u p)
            [newSession uid pid t1 sid1 key1] = 0 :=
          List.countP_eq_zero.mpr (by simpa using hup)
        have := hinv u p
        omega

/-- Witness for C8: two calls on the empty-session database at times 5 and
6 create then reuse one session. -/
theorem create_or_get_twice_same_session_witness :
    (create_or_get_chat_session 7 1
        (create_or_get_chat_session 7 1 db1 5 100 1).2 6 101 2).1.session_id =
      (create_or_get_chat_session 7 1 db1 5 100 1).1.session_id ∧
    (create_or_get_chat_session 7 1 db1 5 100 1).1.last_interaction = 5 ∧
    (create_or_get_chat_session 7 1
        (create_or_get_chat_session 7 1 db1 5 100 1).2 6 101 2).1.last_interaction = 6 ∧
    (create_or_get_chat_session 7 1 db1 5 100 1).1.last_interaction ≤
      (create_or_get_chat_session 7 1
        (create_or_get_chat_session 7 1 db1 5 100 1).2 6 101 2).1.last_interaction ∧
    atMostOneActive (create_or_get_chat_session 7 1
        (create_or_get_chat_session 7 1 db1 5 100 1).2 6 101 2).2 :=
  create_or_get_twice_same_session db1 7 1 5 6 100 1 101 2 (by simp [db1])
    (by simp [db1]) (by norm_num) (fun _ _ => Nat.zero_le 1)

end Rag
